import Mathlib

/-!
# API keys of `hscontrol/db/api_key.go`

A shallow embedding of the API-key operations of the control server's database
layer (`CreateAPIKey`, `GetAPIKey`, `ValidateAPIKey`) and the properties of
issuing and validating bearer tokens.

Conventions of the embedding.

* A Go `string` and a Go `[]byte` are both character sequences (`String`); the
  conversion `[]byte(s)` is the identity.  The separator `.` is one byte of
  UTF-8 and no byte of another character equals it, so the first `.` of the
  characters is the first `.` of the bytes.
* A `time.Time` is an instant on a linear clock (`Int`); `t.Before(u)` is `t < u`.
  The reading of `time.Now()` is an argument of the operation that takes it.
* A `*time.Time` is an `Option Time`; `none` is the nil pointer.
* The table of API keys is the list of its rows.  What the outside world decides
  (random bytes, the answer of the store to an insert) is an argument.
* The packages `util` and `bcrypt` are not part of the embedded file: their
  functions are the fields of the structures `Util` and `Bcrypt`, and what is
  assumed about them is stated as a named property where it is used.
* A Go function that can panic returns an `Outcome`.
-/

set_option autoImplicit false

namespace Headscale

/-! ## Data model -/

/-- Instants of the clock (`time.Time`). -/
abbrev Time := Int

/-- Random bytes that the operating system will still deliver. -/
abbrev Entropy := List Nat

/-- Go `error` values that the API-key operations can produce or pass on. -/
inductive Error where
  /-- The package variable `ErrAPIKeyFailedToParse`. -/
  | ErrAPIKeyFailedToParse
  /-- The error of `gorm` for a `First` that matches no row. -/
  | ErrRecordNotFound
  /-- The error of `bcrypt` for a password that does not match the hash. -/
  | ErrMismatchedHashAndPassword
  /-- Any other error of a library or of the store. -/
  | other (msg : String)
  /-- The error built by `fmt.Errorf(msg + ": %w", cause)`. -/
  | wrapf (msg : String) (cause : Error)
  deriving DecidableEq, Repr

/-- The record `types.APIKey`, with the fields that `api_key.go` reads and writes. -/
structure APIKey where
  ID : Nat
  Prefix : String
  Hash : String
  Expiration : Option Time
  deriving DecidableEq, Repr

/-- The database handle `HSDatabase`: the rows of the API-key table. -/
structure HSDatabase where
  keys : List APIKey
  deriving DecidableEq, Repr

/-- The result of running a Go function: it returns a value, or the goroutine
panics (here: a nil pointer is dereferenced). -/
inductive Outcome (α : Type) where
  | returns (a : α)
  | panics
  deriving DecidableEq, Repr

/-- The functions of package `util` that `api_key.go` calls. -/
structure Util where
  /-- The call `util.GenerateRandomStringURLSafe(n)`, reading from the random source. -/
  GenerateRandomStringURLSafe : Nat → Entropy → Except Error String × Entropy

/-- The functions and constants of package `bcrypt` that `api_key.go` uses. -/
structure Bcrypt where
  /-- The constant `bcrypt.DefaultCost`. -/
  DefaultCost : Nat
  /-- The call `bcrypt.GenerateFromPassword(password, cost)`; the salt is read from
  the random source. -/
  GenerateFromPassword : String → Nat → Entropy → Except Error String × Entropy
  /-- The call `bcrypt.CompareHashAndPassword(hash, password)`; `none` is the nil error. -/
  CompareHashAndPassword : String → String → Option Error

/-! ## Constants -/

def apiPrefixLength : Nat := 7

def apiKeyLength : Nat := 32

/-! ## Library functions used by the operations -/

/-- The function `strings.IndexByte` on the characters of a string: the position
of the first occurrence of `sep`, `none` where Go returns `-1`. -/
def Index : List Char → Char → Option Nat
  | [], _ => none
  | c :: cs, sep => if c = sep then some 0 else (Index cs sep).map (· + 1)

/-- The function `strings.Cut(s, sep)` for a separator of one character:
`s[:i], s[i+1:], true` at the first occurrence `i` of `sep`, else `s, "", false`. -/
def Cut (s : String) (sep : Char) : String × String × Bool :=
  match Index s.data sep with
  | some i => (String.mk (s.data.take i), String.mk (s.data.drop (i + 1)), true)
  | none => (s, "", false)

/-- The row with the least primary key among `rows` (`ORDER BY id LIMIT 1`). -/
def leastID : List APIKey → Option APIKey
  | [] => none
  | k :: ks =>
    match leastID ks with
    | none => some k
    | some m => if k.ID ≤ m.ID then some k else some m

/-- The query `DB.First(&key, "prefix = ?", p)`: the matching row with the least
primary key, or `ErrRecordNotFound`. -/
def First (hsdb : HSDatabase) (p : String) : Except Error APIKey :=
  match leastID (hsdb.keys.filter (fun k => k.Prefix == p)) with
  | some k => .ok k
  | none => .error .ErrRecordNotFound

/-- The call `DB.Save(&key)` for a record without primary key: the store
refuses with an error and stays as it is, or inserts the row under the
primary key it assigns. -/
def Save (hsdb : HSDatabase) (key : APIKey) (answer : Except Error Nat) :
    Except Error APIKey × HSDatabase :=
  match answer with
  | .error err => (.error err, hsdb)
  | .ok id =>
    let saved : APIKey := { key with ID := id }
    (.ok saved, { keys := hsdb.keys ++ [saved] })

/-! ## The operations of `api_key.go` -/

/-- The method `CreateAPIKey`: a new key, returned with its bearer token.
`rnd` is the random source at the time of the call and `answer` the answer of
the store to the insert. -/
def CreateAPIKey (U : Util) (B : Bcrypt) (hsdb : HSDatabase) (expiration : Option Time)
    (rnd : Entropy) (answer : Except Error Nat) :
    Except Error (String × APIKey) × HSDatabase :=
  match U.GenerateRandomStringURLSafe apiPrefixLength rnd with
  | (.error err, _) => (.error err, hsdb)
  | (.ok pre, rnd1) =>
    match U.GenerateRandomStringURLSafe apiKeyLength rnd1 with
    | (.error err, _) => (.error err, hsdb)
    | (.ok toBeHashed, rnd2) =>
      let keyStr := pre ++ "." ++ toBeHashed
      match B.GenerateFromPassword toBeHashed B.DefaultCost rnd2 with
      | (.error err, _) => (.error err, hsdb)
      | (.ok hash, _) =>
        let key : APIKey := { ID := 0, Prefix := pre, Hash := hash, Expiration := expiration }
        match Save hsdb key answer with
        | (.error err, db) => (.error (.wrapf "failed to save API key to database" err), db)
        | (.ok saved, db) => (.ok (keyStr, saved), db)

/-- The method `GetAPIKey`. -/
def GetAPIKey (hsdb : HSDatabase) (p : String) : Except Error APIKey :=
  match First hsdb p with
  | .error err => .error err
  | .ok key => .ok key

/-- The method `ValidateAPIKey`. `envApiKey` is the package variable read from
`HEADSCALE_API_KEY` at start-up and `now` the reading of `time.Now()`.
`key.Expiration.Before` dereferences the pointer `key.Expiration`. -/
def ValidateAPIKey (B : Bcrypt) (envApiKey : String) (hsdb : HSDatabase) (now : Time)
    (keyStr : String) : Outcome (Bool × Option Error) :=
  if envApiKey = keyStr then .returns (true, none)
  else
    match Cut keyStr '.' with
    | (_, _, false) => .returns (false, some .ErrAPIKeyFailedToParse)
    | (pre, hash, true) =>
      match GetAPIKey hsdb pre with
      | .error err => .returns (false, some (.wrapf "failed to validate api key" err))
      | .ok key =>
        match key.Expiration with
        | none => .panics
        | some expiration =>
          if expiration < now then .returns (false, none)
          else
            match B.CompareHashAndPassword key.Hash hash with
            | some err => .returns (false, some err)
            | none => .returns (true, none)

/-! ## What is assumed of the two packages -/

/-- The characters of the URL-safe base64 alphabet. -/
def isURLSafeChar (c : Char) : Bool :=
  c.isAlphanum || c == '-' || c == '_'

/-- Modelled from the spec: `util.GenerateRandomStringURLSafe` is not part of the
embedded file; it "generates cryptographically secure random URL-safe strings"
of the requested number of characters, with "no `.` within either half". -/
def Util.URLSafe (U : Util) : Prop :=
  ∀ (n : Nat) (rnd rnd1 : Entropy) (s : String),
    U.GenerateRandomStringURLSafe n rnd = (.ok s, rnd1) →
      s.length = n ∧ ∀ c ∈ s.data, isURLSafeChar c = true

/-- The hash generated from a password verifies against that password. -/
def Bcrypt.VerifiesOwnHash (B : Bcrypt) : Prop :=
  ∀ (password hash : String) (cost : Nat) (rnd rnd1 : Entropy),
    B.GenerateFromPassword password cost rnd = (.ok hash, rnd1) →
      B.CompareHashAndPassword hash password = none

/-- A generated hash is a string of 60 characters, the size of a bcrypt hash. -/
def Bcrypt.FixedSize (B : Bcrypt) : Prop :=
  ∀ (password hash : String) (cost : Nat) (rnd rnd1 : Entropy),
    B.GenerateFromPassword password cost rnd = (.ok hash, rnd1) → hash.length = 60

/-! ## Executable stand-ins for the two packages

They make the operations runnable on concrete inputs. -/

/-- The URL-safe base64 alphabet. -/
def alphabet : List Char :=
  "ABCDEFGHIJKLMNOPQRSTUVWXYZabcdefghijklmnopqrstuvwxyz0123456789-_".data

/-- The character that encodes a random byte. -/
def encodeChar (b : Nat) : Char :=
  alphabet.getD (b % 64) 'A'

/-- Modelled from the spec: `util.GenerateRandomStringURLSafe` is not part of the
embedded file. This stand-in turns the next `n` random bytes into `n` characters
of the URL-safe alphabet and fails when the random source is exhausted. -/
def modelUtil : Util where
  GenerateRandomStringURLSafe := fun n rnd =>
    if n ≤ rnd.length then (.ok (String.mk ((rnd.take n).map encodeChar)), rnd.drop n)
    else (.error (.other "unexpected EOF"), rnd)

/-- The 52 characters that the stand-in hash derives from a password. -/
def digest (password : String) : List Char :=
  (password.data.reverse ++ List.replicate 52 '.').take 52

/-- Modelled from the spec: package `bcrypt` is not part of the embedded file.
This stand-in for the "adaptive one-way hash" writes a header, one character of
salt and a digest of the password, 60 characters in all, and verifies a password
by deriving the digest again. -/
def modelBcrypt : Bcrypt where
  DefaultCost := 10
  GenerateFromPassword := fun password cost rnd =>
    if 72 < password.length then (.error (.other "password length exceeds 72 bytes"), rnd)
    else if 31 < cost then (.error (.other "cost is outside allowed range"), rnd)
    else
      match rnd with
      | [] => (.error (.other "unexpected EOF"), [])
      | salt :: rest => (.ok (String.mk ("$2a$10$".data ++ encodeChar salt :: digest password)), rest)
  CompareHashAndPassword := fun hash password =>
    if hash.length = 60 then
      if hash.data.drop 8 = digest password then none
      else some .ErrMismatchedHashAndPassword
    else some (.other "hashedSecret too short to be a bcrypted password")

/-! ## Concrete data for the examples -/

/-- The random bytes `0, 1, ..., 39`: seven for a key's public part, thirty-two
for its secret and one for the salt. -/
def sampleEntropy : Entropy := List.range 40

/-- The bearer token that `CreateAPIKey` returns on `sampleEntropy`. -/
def sampleToken : String := "ABCDEFG.HIJKLMNOPQRSTUVWXYZabcdefghijklm"

/-- The hash that `CreateAPIKey` stores on `sampleEntropy`. -/
def sampleHash : String := "$2a$10$nmlkjihgfedcbaZYXWVUTSRQPONMLKJIH...................."

/-- The record that `CreateAPIKey` stores on `sampleEntropy` with expiration `100`. -/
def sampleKey : APIKey :=
  { ID := 1, Prefix := "ABCDEFG", Hash := sampleHash, Expiration := some 100 }

/-- The record that `CreateAPIKey` stores on `sampleEntropy` without expiration. -/
def sampleKeyNoExpiration : APIKey :=
  { ID := 1, Prefix := "ABCDEFG", Hash := sampleHash, Expiration := none }

/-! ## Lemmas on the library functions -/

theorem isURLSafeChar_dot : isURLSafeChar '.' = false := by decide

theorem alphabet_urlSafe : ∀ c ∈ alphabet, isURLSafeChar c = true := by decide

theorem encodeChar_urlSafe (b : Nat) : isURLSafeChar (encodeChar b) = true := by
  have hlt : b % 64 < alphabet.length := by
    have : alphabet.length = 64 := by decide
    rw [this]; exact Nat.mod_lt _ (by decide)
  unfold encodeChar
  rw [List.getD_eq_getElem _ _ hlt]
  exact alphabet_urlSafe _ (List.getElem_mem hlt)

theorem modelUtil_urlSafe : modelUtil.URLSafe := by
  intro n rnd rnd1 s h
  simp only [modelUtil] at h
  split at h
  · next hle =>
    simp only [Prod.mk.injEq, Except.ok.injEq] at h
    obtain ⟨hs, -⟩ := h
    subst hs
    refine ⟨by simp [String.length, hle], ?_⟩
    intro c hc
    simp only [List.mem_map] at hc
    obtain ⟨b, -, rfl⟩ := hc
    exact encodeChar_urlSafe b
  · simp at h

theorem digest_length (password : String) : (digest password).length = 52 := by
  simp [digest]

theorem modelBcrypt_fixedSize : modelBcrypt.FixedSize := by
  intro password hash cost rnd rnd1 h
  simp only [modelBcrypt] at h
  split at h
  · simp at h
  · split at h
    · simp at h
    · split at h
      · simp at h
      · simp only [Prod.mk.injEq, Except.ok.injEq] at h
        obtain ⟨hs, -⟩ := h
        subst hs
        simp [String.length, digest_length]

theorem modelBcrypt_verifiesOwnHash : modelBcrypt.VerifiesOwnHash := by
  intro password hash cost rnd rnd1 h
  have hlen := modelBcrypt_fixedSize password hash cost rnd rnd1 h
  simp only [modelBcrypt] at h
  split at h
  · simp at h
  · split at h
    · simp at h
    · split at h
      · simp at h
      · simp only [Prod.mk.injEq, Except.ok.injEq] at h
        obtain ⟨hs, -⟩ := h
        subst hs
        simp only [modelBcrypt, hlen, if_true]
        simp

theorem Index_eq_none (sep : Char) (l : List Char) (h : sep ∉ l) : Index l sep = none := by
  induction l with
  | nil => rfl
  | cons c cs ih =>
    simp only [List.mem_cons, not_or] at h
    have hc : c ≠ sep := fun e => h.1 e.symm
    simp [Index, hc, ih h.2]

theorem Index_append_sep (sep : Char) (l r : List Char) (h : sep ∉ l) :
    Index (l ++ sep :: r) sep = some l.length := by
  induction l with
  | nil => simp [Index]
  | cons c cs ih =>
    simp only [List.mem_cons, not_or] at h
    have hc : c ≠ sep := fun e => h.1 e.symm
    simp [Index, hc, ih h.2]

theorem Index_eq_some (sep : Char) (l : List Char) (i : Nat) (h : Index l sep = some i) :
    sep ∉ l.take i ∧ l = l.take i ++ sep :: l.drop (i + 1) := by
  induction l generalizing i with
  | nil => simp [Index] at h
  | cons c cs ih =>
    by_cases hc : c = sep
    · simp only [Index, hc, if_true, Option.some.injEq] at h
      subst h
      simp [hc]
    · simp only [Index, hc, if_false, Option.map_eq_some'] at h
      obtain ⟨j, hj, rfl⟩ := h
      obtain ⟨h1, h2⟩ := ih j hj
      refine ⟨?_, ?_⟩
      · simp only [List.take_succ_cons, List.mem_cons, not_or]
        exact ⟨fun e => hc e.symm, h1⟩
      · simp only [List.take_succ_cons, List.drop_succ_cons, List.cons_append, List.cons.injEq,
          true_and]
        exact h2

theorem Cut_not_found (s : String) (h : '.' ∉ s.data) : Cut s '.' = (s, "", false) := by
  simp [Cut, Index_eq_none '.' s.data h]

theorem Cut_join (pre suf : String) (h : '.' ∉ pre.data) :
    Cut (pre ++ "." ++ suf) '.' = (pre, suf, true) := by
  have hd : (pre ++ "." ++ suf).data = pre.data ++ '.' :: suf.data := by
    simp [String.data_append]
  have htake : (pre.data ++ '.' :: suf.data).take pre.data.length = pre.data := by simp
  have hdrop : (pre.data ++ '.' :: suf.data).drop (pre.data.length + 1) = suf.data := by
    rw [← List.drop_drop, List.drop_left]
    rfl
  simp only [Cut, hd, Index_append_sep '.' pre.data suf.data h, htake, hdrop]

theorem Cut_found (s pre suf : String) (h : Cut s '.' = (pre, suf, true)) :
    s = pre ++ "." ++ suf ∧ '.' ∉ pre.data := by
  unfold Cut at h
  split at h
  · next i hi =>
    obtain ⟨h1, h2⟩ := Index_eq_some '.' s.data i hi
    simp only [Prod.mk.injEq, and_true] at h
    obtain ⟨hp, hs⟩ := h
    subst hp hs
    refine ⟨?_, h1⟩
    apply String.ext
    simpa [String.data_append] using h2
  · simp at h

theorem leastID_mem (rows : List APIKey) (k : APIKey) (h : leastID rows = some k) :
    k ∈ rows := by
  induction rows generalizing k with
  | nil => simp [leastID] at h
  | cons r rs ih =>
    simp only [leastID] at h
    split at h
    · simp only [Option.some.injEq] at h
      simp [h]
    · next m hm =>
      split at h
      · simp only [Option.some.injEq] at h
        simp [h]
      · simp only [Option.some.injEq] at h
        subst h
        exact List.mem_cons_of_mem _ (ih m hm)

theorem leastID_eq_none (rows : List APIKey) (h : leastID rows = none) : rows = [] := by
  cases rows with
  | nil => rfl
  | cons r rs =>
    simp only [leastID] at h
    split at h
    · simp at h
    · split at h <;> simp at h

theorem GetAPIKey_ok (hsdb : HSDatabase) (p : String) (key : APIKey)
    (h : GetAPIKey hsdb p = .ok key) : key ∈ hsdb.keys ∧ key.Prefix = p := by
  simp only [GetAPIKey, First] at h
  split at h
  · simp at h
  · next k hk =>
    split at hk
    · next m hm =>
      simp only [Except.ok.injEq] at hk h
      subst hk h
      have := leastID_mem _ _ hm
      simpa using this
    · simp at hk

theorem GetAPIKey_absent (hsdb : HSDatabase) (p : String)
    (h : ∀ k ∈ hsdb.keys, k.Prefix ≠ p) : GetAPIKey hsdb p = .error .ErrRecordNotFound := by
  have hf : hsdb.keys.filter (fun k => k.Prefix == p) = [] := by
    simp only [List.filter_eq_nil_iff, beq_iff_eq]
    exact h
  simp [GetAPIKey, First, hf, leastID]

theorem GetAPIKey_unique (hsdb : HSDatabase) (key : APIKey) (hmem : key ∈ hsdb.keys)
    (huniq : ∀ k ∈ hsdb.keys, k.Prefix = key.Prefix → k = key) :
    GetAPIKey hsdb key.Prefix = .ok key := by
  cases hget : GetAPIKey hsdb key.Prefix with
  | ok k =>
    obtain ⟨hk, hp⟩ := GetAPIKey_ok hsdb key.Prefix k hget
    rw [huniq k hk hp]
  | error err =>
    exfalso
    simp only [GetAPIKey, First] at hget
    split at hget
    · next e he =>
      split at he
      · simp at he
      · next hnone =>
        have := leastID_eq_none _ hnone
        simp only [List.filter_eq_nil_iff, beq_iff_eq] at this
        exact this key hmem rfl
    · simp at hget

/-! ## Lemmas on the operations -/

theorem CreateAPIKey_inv (U : Util) (B : Bcrypt) (hsdb db' : HSDatabase)
    (expiration : Option Time) (rnd : Entropy) (answer : Except Error Nat)
    (keyStr : String) (key : APIKey)
    (h : CreateAPIKey U B hsdb expiration rnd answer = (.ok (keyStr, key), db')) :
    ∃ (pre secret hash : String) (rnd1 rnd2 rnd3 : Entropy) (id : Nat),
      U.GenerateRandomStringURLSafe 7 rnd = (.ok pre, rnd1) ∧
      U.GenerateRandomStringURLSafe 32 rnd1 = (.ok secret, rnd2) ∧
      B.GenerateFromPassword secret B.DefaultCost rnd2 = (.ok hash, rnd3) ∧
      answer = .ok id ∧
      keyStr = pre ++ "." ++ secret ∧
      key = { ID := id, Prefix := pre, Hash := hash, Expiration := expiration } ∧
      db' = { keys := hsdb.keys ++ [key] } := by
  unfold CreateAPIKey at h
  split at h
  · simp at h
  · next pre rnd1 h1 =>
    split at h
    · simp at h
    · next secret rnd2 h2 =>
      simp only at h
      split at h
      · simp at h
      · next hash rnd3 h3 =>
        cases answer with
        | error err => simp [Save] at h
        | ok id =>
          simp only [Save, Prod.mk.injEq, Except.ok.injEq] at h
          obtain ⟨⟨hk, hkey⟩, hdb⟩ := h
          refine ⟨pre, secret, hash, rnd1, rnd2, rnd3, id, h1, h2, h3, rfl, hk.symm, hkey.symm, ?_⟩
          rw [← hdb, ← hkey]

theorem ValidateAPIKey_lookup (B : Bcrypt) (envApiKey : String) (hsdb : HSDatabase)
    (now : Time) (pre secret : String) (key : APIKey)
    (hne : envApiKey ≠ pre ++ "." ++ secret) (hdot : '.' ∉ pre.data)
    (hget : GetAPIKey hsdb pre = .ok key) :
    ValidateAPIKey B envApiKey hsdb now (pre ++ "." ++ secret) =
      match key.Expiration with
      | none => .panics
      | some expiration =>
        if expiration < now then .returns (false, none)
        else
          match B.CompareHashAndPassword key.Hash secret with
          | some err => .returns (false, some err)
          | none => .returns (true, none) := by
  unfold ValidateAPIKey
  rw [if_neg hne, Cut_join pre secret hdot]
  simp only [hget]

theorem ValidateAPIKey_nil_expiration (B : Bcrypt) (envApiKey : String) (hsdb : HSDatabase)
    (now : Time) (secret : String) (key : APIKey)
    (hne : envApiKey ≠ key.Prefix ++ "." ++ secret) (hdot : '.' ∉ key.Prefix.data)
    (hmem : key ∈ hsdb.keys)
    (huniq : ∀ k ∈ hsdb.keys, k.Prefix = key.Prefix → k = key)
    (hexp : key.Expiration = none) :
    ValidateAPIKey B envApiKey hsdb now (key.Prefix ++ "." ++ secret) = .panics := by
  rw [ValidateAPIKey_lookup B envApiKey hsdb now key.Prefix secret key hne hdot
    (GetAPIKey_unique hsdb key hmem huniq)]
  simp [hexp]

theorem URLSafe_no_dot (s : String) (h : ∀ c ∈ s.data, isURLSafeChar c = true) :
    '.' ∉ s.data := by
  intro hmem
  have := h '.' hmem
  rw [isURLSafeChar_dot] at this
  exact Bool.noConfusion this

/-! ## Issuing a key -/

/-- C9: a successful `CreateAPIKey(expiration)` drew its two random strings with
lengths 7 and 32, returns the token made of the first, a `.` and the second,
returns and stores the record with that first string as `Prefix`, the hash
generated from the second as `Hash` and the expiration passed in, and the table
gains that record and nothing else. For a generator that returns strings of the
requested length and a hash of bcrypt's size, the stored `Hash` is not the secret. -/
theorem CreateAPIKey_record (U : Util) (B : Bcrypt) (hsdb db' : HSDatabase)
    (expiration : Option Time) (rnd : Entropy) (answer : Except Error Nat)
    (keyStr : String) (key : APIKey)
    (h : CreateAPIKey U B hsdb expiration rnd answer = (.ok (keyStr, key), db')) :
    ∃ (pre secret hash : String) (rnd1 rnd2 rnd3 : Entropy),
      U.GenerateRandomStringURLSafe 7 rnd = (.ok pre, rnd1) ∧
      U.GenerateRandomStringURLSafe 32 rnd1 = (.ok secret, rnd2) ∧
      B.GenerateFromPassword secret B.DefaultCost rnd2 = (.ok hash, rnd3) ∧
      keyStr = pre ++ "." ++ secret ∧
      key.Prefix = pre ∧ key.Hash = hash ∧ key.Expiration = expiration ∧
      db'.keys = hsdb.keys ++ [key] ∧
      (U.URLSafe → pre.length = 7 ∧ secret.length = 32) ∧
      (U.URLSafe → B.FixedSize → key.Hash ≠ secret) := by
  obtain ⟨pre, secret, hash, rnd1, rnd2, rnd3, id, h1, h2, h3, -, hk, hkey, hdb⟩ :=
    CreateAPIKey_inv U B hsdb db' expiration rnd answer keyStr key h
  refine ⟨pre, secret, hash, rnd1, rnd2, rnd3, h1, h2, h3, hk, ?_, ?_, ?_, ?_, ?_, ?_⟩
  · rw [hkey]
  · rw [hkey]
  · rw [hkey]
  · rw [hdb]
  · intro hU
    exact ⟨(hU 7 rnd rnd1 pre h1).1, (hU 32 rnd1 rnd2 secret h2).1⟩
  · intro hU hB heq
    have h60 : hash.length = 60 := hB secret hash B.DefaultCost rnd2 rnd3 h3
    have h32 : secret.length = 32 := (hU 32 rnd1 rnd2 secret h2).1
    have : hash = secret := by rw [← heq, hkey]
    rw [this, h32] at h60
    exact absurd h60 (by decide)

theorem CreateAPIKey_record_witness :
    sampleToken = "ABCDEFG" ++ "." ++ "HIJKLMNOPQRSTUVWXYZabcdefghijklm" ∧
    ∃ (pre secret hash : String) (rnd1 rnd2 rnd3 : Entropy),
      modelUtil.GenerateRandomStringURLSafe 7 sampleEntropy = (.ok pre, rnd1) ∧
      modelUtil.GenerateRandomStringURLSafe 32 rnd1 = (.ok secret, rnd2) ∧
      modelBcrypt.GenerateFromPassword secret modelBcrypt.DefaultCost rnd2 = (.ok hash, rnd3) ∧
      sampleToken = pre ++ "." ++ secret ∧
      sampleKey.Prefix = pre ∧ sampleKey.Hash = hash ∧ sampleKey.Expiration = some 100 ∧
      ({ keys := [sampleKey] } : HSDatabase).keys = [] ++ [sampleKey] ∧
      (modelUtil.URLSafe → pre.length = 7 ∧ secret.length = 32) ∧
      (modelUtil.URLSafe → modelBcrypt.FixedSize → sampleKey.Hash ≠ secret) :=
  ⟨rfl, CreateAPIKey_record modelUtil modelBcrypt { keys := [] } { keys := [sampleKey] }
    (some 100) sampleEntropy (.ok 1) sampleToken sampleKey rfl⟩

/-! ## Validating a token -/

/-- C1: round trip. After a successful `CreateAPIKey` with an expiration time, for
a generator of URL-safe strings and a hash that verifies its own passwords, when
no stored key had the new key's `Prefix`, `ValidateAPIKey` on the returned token
in the resulting store returns `(true, nil)` at every clock reading that is not
after the expiration. -/
theorem CreateAPIKey_ValidateAPIKey (U : Util) (B : Bcrypt) (hU : U.URLSafe)
    (hB : B.VerifiesOwnHash) (hsdb db' : HSDatabase) (expiration now : Time)
    (rnd : Entropy) (answer : Except Error Nat) (envApiKey keyStr : String) (key : APIKey)
    (hcreate : CreateAPIKey U B hsdb (some expiration) rnd answer = (.ok (keyStr, key), db'))
    (hfresh : ∀ k ∈ hsdb.keys, k.Prefix ≠ key.Prefix)
    (hnow : now ≤ expiration) :
    ValidateAPIKey B envApiKey db' now keyStr = .returns (true, none) := by
  obtain ⟨pre, secret, hash, rnd1, rnd2, rnd3, id, h1, -, h3, -, hk, hkey, hdb⟩ :=
    CreateAPIKey_inv U B hsdb db' (some expiration) rnd answer keyStr key hcreate
  by_cases hne : envApiKey = keyStr
  · simp [ValidateAPIKey, hne]
  · have hdot : '.' ∉ pre.data := URLSafe_no_dot pre (hU 7 rnd rnd1 pre h1).2
    have hpre : key.Prefix = pre := by rw [hkey]
    have hmem : key ∈ db'.keys := by rw [hdb]; simp
    have huniq : ∀ k ∈ db'.keys, k.Prefix = key.Prefix → k = key := by
      intro k hkmem hkp
      rw [hdb] at hkmem
      simp only [List.mem_append, List.mem_singleton] at hkmem
      rcases hkmem with hold | hnew
      · exact absurd hkp (hfresh k hold)
      · exact hnew
    have hget := GetAPIKey_unique db' key hmem huniq
    rw [hpre] at hget
    rw [hk] at hne ⊢
    rw [ValidateAPIKey_lookup B envApiKey db' now pre secret key hne hdot hget]
    have hexp : key.Expiration = some expiration := by rw [hkey]
    have hhash : key.Hash = hash := by rw [hkey]
    have hcmp := hB secret hash B.DefaultCost rnd2 rnd3 h3
    simp [hexp, hhash, hcmp, not_lt.mpr hnow]

theorem CreateAPIKey_ValidateAPIKey_witness :
    CreateAPIKey modelUtil modelBcrypt { keys := [] } (some 100) sampleEntropy (.ok 1)
      = (.ok (sampleToken, sampleKey), { keys := [sampleKey] }) ∧
    ValidateAPIKey modelBcrypt "" { keys := [sampleKey] } 100 sampleToken
      = .returns (true, none) :=
  ⟨rfl, CreateAPIKey_ValidateAPIKey modelUtil modelBcrypt modelUtil_urlSafe
    modelBcrypt_verifiesOwnHash { keys := [] } { keys := [sampleKey] } 100 100 sampleEntropy
    (.ok 1) "" sampleToken sampleKey rfl (by simp) (by decide)⟩

/-- C2: the key that `CreateAPIKey(nil)` issues into an empty store does not
validate. With no override configured, `ValidateAPIKey` on the returned token
panics at every clock reading, on the nil `Expiration` it dereferences. -/
theorem ValidateAPIKey_nil_expiration_panics :
    CreateAPIKey modelUtil modelBcrypt { keys := [] } none sampleEntropy (.ok 1)
      = (.ok (sampleToken, sampleKeyNoExpiration), { keys := [sampleKeyNoExpiration] }) ∧
    ∀ now : Time,
      ValidateAPIKey modelBcrypt "" { keys := [sampleKeyNoExpiration] } now sampleToken
        = .panics := by
  refine ⟨rfl, fun now => ?_⟩
  exact ValidateAPIKey_nil_expiration modelBcrypt "" { keys := [sampleKeyNoExpiration] } now
    "HIJKLMNOPQRSTUVWXYZabcdefghijklm" sampleKeyNoExpiration (by decide) (by decide)
    (by simp) (by simp) rfl

/-- C3 as stated fails: a token with the `Prefix` of a stored, unexpired key and
a secret that does not verify makes `ValidateAPIKey` return the mismatch error
of the hash library, not a nil error. -/
theorem ValidateAPIKey_mismatch_counterexample :
    sampleKey ∈ ({ keys := [sampleKey] } : HSDatabase).keys ∧
    sampleKey.Prefix = "ABCDEFG" ∧
    sampleKey.Expiration = some 100 ∧ ¬ ((100 : Time) < 5) ∧
    modelBcrypt.CompareHashAndPassword sampleKey.Hash "wrong" ≠ none ∧
    ("" : String) ≠ "ABCDEFG.wrong" ∧
    ValidateAPIKey modelBcrypt "" { keys := [sampleKey] } 5 "ABCDEFG.wrong"
      = .returns (false, some .ErrMismatchedHashAndPassword) ∧
    ValidateAPIKey modelBcrypt "" { keys := [sampleKey] } 5 "ABCDEFG.wrong"
      ≠ .returns (false, none) := by
  decide

/-- C3, amended: for a token `p.secret` that is not the override, where `p` has no
`.` and is the `Prefix` of exactly one stored key, whose `Expiration` is set and
not before the clock, a secret that the hash comparison rejects with an error
makes `ValidateAPIKey` return `false` together with that error. -/
theorem ValidateAPIKey_mismatch (B : Bcrypt) (envApiKey : String) (hsdb : HSDatabase)
    (now expiration : Time) (secret : String) (key : APIKey) (err : Error)
    (hne : envApiKey ≠ key.Prefix ++ "." ++ secret) (hdot : '.' ∉ key.Prefix.data)
    (hmem : key ∈ hsdb.keys)
    (huniq : ∀ k ∈ hsdb.keys, k.Prefix = key.Prefix → k = key)
    (hexp : key.Expiration = some expiration) (hlive : now ≤ expiration)
    (hcmp : B.CompareHashAndPassword key.Hash secret = some err) :
    ValidateAPIKey B envApiKey hsdb now (key.Prefix ++ "." ++ secret)
      = .returns (false, some err) := by
  rw [ValidateAPIKey_lookup B envApiKey hsdb now key.Prefix secret key hne hdot
    (GetAPIKey_unique hsdb key hmem huniq)]
  simp [hexp, hcmp, not_lt.mpr hlive]

theorem ValidateAPIKey_mismatch_witness :
    ValidateAPIKey modelBcrypt "" { keys := [sampleKey] } 5 ("ABCDEFG" ++ "." ++ "wrong")
      = .returns (false, some .ErrMismatchedHashAndPassword) :=
  ValidateAPIKey_mismatch modelBcrypt "" { keys := [sampleKey] } 5 100 "wrong" sampleKey
    .ErrMismatchedHashAndPassword (by decide) (by decide) (by simp) (by simp) rfl (by decide)
    (by decide)

/-- C4: with an empty override, `ValidateAPIKey("")` returns `(true, nil)` in
every store: the comparison with the override has no guard for the empty string. -/
theorem ValidateAPIKey_empty_override (B : Bcrypt) (hsdb : HSDatabase) (now : Time) :
    ValidateAPIKey B "" hsdb now "" = .returns (true, none) := by
  simp [ValidateAPIKey]

/-- C5 as stated fails: the token `X` has no `.`, and with the override `X`
`ValidateAPIKey` returns `(true, nil)`, not the parse error. -/
theorem ValidateAPIKey_parse_counterexample :
    '.' ∉ ("X" : String).data ∧
    ValidateAPIKey modelBcrypt "X" { keys := [] } 0 "X" = .returns (true, none) ∧
    ValidateAPIKey modelBcrypt "X" { keys := [] } 0 "X"
      ≠ .returns (false, some .ErrAPIKeyFailedToParse) := by
  decide

/-- C5, amended: for every token without `.` that differs from the override
value, in every store and at every clock reading, `ValidateAPIKey` returns
`(false, ErrAPIKeyFailedToParse)`. -/
theorem ValidateAPIKey_parse_error (B : Bcrypt) (envApiKey : String) (hsdb : HSDatabase)
    (now : Time) (keyStr : String) (hne : envApiKey ≠ keyStr) (hdot : '.' ∉ keyStr.data) :
    ValidateAPIKey B envApiKey hsdb now keyStr
      = .returns (false, some .ErrAPIKeyFailedToParse) := by
  unfold ValidateAPIKey
  rw [if_neg hne, Cut_not_found keyStr hdot]

theorem ValidateAPIKey_parse_error_witness :
    ValidateAPIKey modelBcrypt "X" { keys := [sampleKey] } 5 "ABCDEFG"
      = .returns (false, some .ErrAPIKeyFailedToParse) :=
  ValidateAPIKey_parse_error modelBcrypt "X" { keys := [sampleKey] } 5 "ABCDEFG"
    (by decide) (by decide)

/-- C6: for a token `p.secret` that is not the override, where `p` has no `.` and
is the `Prefix` of exactly one stored key, whose `Expiration` is set and before
the clock, `ValidateAPIKey` returns `(false, nil)` for every secret and every
hash comparison: the result does not depend on the comparison. -/
theorem ValidateAPIKey_expired (B : Bcrypt) (envApiKey : String) (hsdb : HSDatabase)
    (now expiration : Time) (secret : String) (key : APIKey)
    (hne : envApiKey ≠ key.Prefix ++ "." ++ secret) (hdot : '.' ∉ key.Prefix.data)
    (hmem : key ∈ hsdb.keys)
    (huniq : ∀ k ∈ hsdb.keys, k.Prefix = key.Prefix → k = key)
    (hexp : key.Expiration = some expiration) (hpast : expiration < now) :
    ValidateAPIKey B envApiKey hsdb now (key.Prefix ++ "." ++ secret)
      = .returns (false, none) := by
  rw [ValidateAPIKey_lookup B envApiKey hsdb now key.Prefix secret key hne hdot
    (GetAPIKey_unique hsdb key hmem huniq)]
  simp [hexp, hpast]

theorem ValidateAPIKey_expired_witness :
    modelBcrypt.CompareHashAndPassword sampleKey.Hash "HIJKLMNOPQRSTUVWXYZabcdefghijklm" = none ∧
    ValidateAPIKey modelBcrypt "" { keys := [sampleKey] } 101
      ("ABCDEFG" ++ "." ++ "HIJKLMNOPQRSTUVWXYZabcdefghijklm") = .returns (false, none) :=
  ⟨by decide, ValidateAPIKey_expired modelBcrypt "" { keys := [sampleKey] } 101 100
    "HIJKLMNOPQRSTUVWXYZabcdefghijklm" sampleKey (by decide) (by decide) (by simp) (by simp)
    rfl (by decide)⟩

/-- C7: when the override is not empty and the token equals it, `ValidateAPIKey`
returns `(true, nil)` for every hash library, every store and every clock
reading, whether or not the token has a `.` or names a stored key. -/
theorem ValidateAPIKey_override (B : Bcrypt) (envApiKey : String) (hsdb : HSDatabase)
    (now : Time) (keyStr : String) (_hset : envApiKey ≠ "") (heq : keyStr = envApiKey) :
    ValidateAPIKey B envApiKey hsdb now keyStr = .returns (true, none) := by
  simp [ValidateAPIKey, heq]

theorem ValidateAPIKey_override_witness :
    '.' ∉ ("X" : String).data ∧
    ValidateAPIKey modelBcrypt "X" { keys := [] } 0 "X" = .returns (true, none) :=
  ⟨by decide, ValidateAPIKey_override modelBcrypt "X" { keys := [] } 0 "X" (by decide) rfl⟩

/-- C8: for a token `p.rest` that is not the override, where `p` has no `.` (so
`p` is the text before the first `.`) and no stored key has `Prefix` `p`,
`ValidateAPIKey` returns `false` with the lookup failure `ErrRecordNotFound`
wrapped in an error; it does not return `true` and does not panic. -/
theorem ValidateAPIKey_unknown (B : Bcrypt) (envApiKey : String) (hsdb : HSDatabase)
    (now : Time) (pre rest : String)
    (hne : envApiKey ≠ pre ++ "." ++ rest) (hdot : '.' ∉ pre.data)
    (habsent : ∀ k ∈ hsdb.keys, k.Prefix ≠ pre) :
    ValidateAPIKey B envApiKey hsdb now (pre ++ "." ++ rest)
      = .returns (false, some (.wrapf "failed to validate api key" .ErrRecordNotFound)) := by
  unfold ValidateAPIKey
  rw [if_neg hne, Cut_join pre rest hdot]
  simp only [GetAPIKey_absent hsdb pre habsent]

theorem ValidateAPIKey_unknown_witness :
    ValidateAPIKey modelBcrypt "" { keys := [sampleKey] } 5
      ("ABCDEFH" ++ "." ++ "HIJKLMNOPQRSTUVWXYZabcdefghijklm")
      = .returns (false, some (.wrapf "failed to validate api key" .ErrRecordNotFound)) :=
  ValidateAPIKey_unknown modelBcrypt "" { keys := [sampleKey] } 5 "ABCDEFH"
    "HIJKLMNOPQRSTUVWXYZabcdefghijklm" (by decide) (by decide) (by decide)

/-- C10: soundness. When `ValidateAPIKey` returns `true`, the error is nil, and the
token is the override value or it is `p.rest` with no `.` in `p`, a stored key
has `Prefix` `p`, that key's `Expiration` is set and not before the clock, and
`rest`, dots included, verifies against that key's `Hash`. -/
theorem ValidateAPIKey_sound (B : Bcrypt) (envApiKey : String) (hsdb : HSDatabase)
    (now : Time) (keyStr : String) (err : Option Error)
    (h : ValidateAPIKey B envApiKey hsdb now keyStr = .returns (true, err)) :
    err = none ∧
    (keyStr = envApiKey ∨
      ∃ (pre rest : String) (key : APIKey) (expiration : Time),
        keyStr = pre ++ "." ++ rest ∧ '.' ∉ pre.data ∧
        key ∈ hsdb.keys ∧ key.Prefix = pre ∧
        key.Expiration = some expiration ∧ ¬ expiration < now ∧
        B.CompareHashAndPassword key.Hash rest = none) := by
  unfold ValidateAPIKey at h
  split at h
  · next heq =>
    simp only [Outcome.returns.injEq, Prod.mk.injEq, true_and] at h
    exact ⟨h.symm, Or.inl heq.symm⟩
  · split at h
    · simp at h
    · next pre rest hcut =>
      obtain ⟨hs, hdot⟩ := Cut_found keyStr pre rest hcut
      split at h
      · simp at h
      · next key hget =>
        obtain ⟨hmem, hpre⟩ := GetAPIKey_ok hsdb pre key hget
        split at h
        · simp at h
        · next expiration hexp =>
          split at h
          · simp at h
          · next hlive =>
            split at h
            · simp at h
            · next hcmp =>
              simp only [Outcome.returns.injEq, Prod.mk.injEq, true_and] at h
              exact ⟨h.symm, Or.inr ⟨pre, rest, key, expiration, hs, hdot, hmem, hpre, hexp,
                hlive, hcmp⟩⟩

theorem ValidateAPIKey_sound_witness :
    ValidateAPIKey modelBcrypt "" { keys := [sampleKey] } 5 sampleToken
      = .returns (true, none) ∧
    ((none : Option Error) = none ∧
    (sampleToken = "" ∨
      ∃ (pre rest : String) (key : APIKey) (expiration : Time),
        sampleToken = pre ++ "." ++ rest ∧ '.' ∉ pre.data ∧
        key ∈ ({ keys := [sampleKey] } : HSDatabase).keys ∧ key.Prefix = pre ∧
        key.Expiration = some expiration ∧ ¬ expiration < 5 ∧
        modelBcrypt.CompareHashAndPassword key.Hash rest = none)) :=
  ⟨by decide, ValidateAPIKey_sound modelBcrypt "" { keys := [sampleKey] } 5 sampleToken none
    (by decide)⟩

end Headscale
